import Mathlib

/-!
Shallow embedding of the frequency-sweep RF measurement driver
(main.py, src/measurements/vsa.py, src/measurements/power_servo.py).

Modelling conventions:
* Python floats are modelled as exact rationals (`Rat`); wall-clock
  timing values (setup / settle / measure times) are not modelled.
* Instrument transport is abstracted: each fetch is represented by the
  response string the instrument would return, and each state-changing
  command by an explicit update of an `AnalyzerState` record.
* Python exceptions are modelled with `Except String`.
-/

/-- A Python float value as used by the measurement code: either a real
number (modelled as a rational) or the NaN sentinel produced by
`float('nan')`. -/
inductive FVal where
  | nan : FVal
  | val : Rat → FVal
deriving DecidableEq, Repr

/-- Numeric value of a list of decimal digit characters. -/
def digitsVal (cs : List Char) : Nat :=
  cs.foldl (fun a c => 10 * a + (c.toNat - 48)) 0

/-- Split a character list at every occurrence of the separator, like
Python `str.split(sep)`. -/
def splitOnChar (sep : Char) : List Char → List (List Char)
  | [] => [[]]
  | c :: cs =>
      let r := splitOnChar sep cs
      if c = sep then [] :: r
      else
        match r with
        | [] => [[c]]
        | p :: ps => (c :: p) :: ps

/-- Strip leading and trailing whitespace, like Python `str.strip()`. -/
def trimChars (cs : List Char) : List Char :=
  ((cs.dropWhile Char.isWhitespace).reverse.dropWhile Char.isWhitespace).reverse

/-- Model of Python `float` on the plain decimal strings exchanged with
the instruments (as character lists): optional surrounding whitespace,
optional sign, integer part, optional fractional part.  Returns `none`
where Python `float` raises `ValueError` (e.g. on "ERR").  Exponent
notation and the literals inf/nan are outside the protocol's response
format and are not modelled. -/
def pythonFloatChars (s : List Char) : Option Rat :=
  let cs := trimChars s
  let sgn : Int := match cs with
    | '-' :: _ => -1
    | _ => 1
  let body : List Char := match cs with
    | '-' :: t => t
    | '+' :: t => t
    | t => t
  match splitOnChar '.' body with
  | [ip] =>
      if ip ≠ [] ∧ ip.all Char.isDigit then
        some (Rat.divInt (sgn * digitsVal ip) 1)
      else none
  | [ip, fp] =>
      if (ip ≠ [] ∨ fp ≠ []) ∧ ip.all Char.isDigit ∧ fp.all Char.isDigit then
        some (Rat.divInt (sgn * (digitsVal ip * 10 ^ fp.length + digitsVal fp))
          (10 ^ fp.length))
      else none
  | _ => none

/-- Python `float(s)` on a response string. -/
def pythonFloat (s : String) : Option Rat :=
  pythonFloatChars s.data

/-- The analyzer measurement application selected by `CONF:NR5G:MEAS`:
EVM mode or adjacent-channel-leakage (ACLR) mode. -/
inductive MeasMode where
  | evm : MeasMode
  | aclr : MeasMode
deriving DecidableEq, Repr

/-- The analyzer device state the measurement choreography manipulates:
active measurement mode, the noise-cancellation averaging switch and
count (`SENS:ADJ:NCAN:AVER:STAT/COUN`), and the noise-correction flag
(`SENS:POW:NCOR`). -/
structure AnalyzerState where
  mode : MeasMode
  ncanAvgOn : Bool
  ncanCount : Nat
  noiseCorrOn : Bool
deriving DecidableEq, Repr

/-- Result record of `VSA.measure_evm` (timing fields omitted): averaged
power, averaged EVM, and the three positional ACLR fields. -/
structure EvmResult where
  vsaPower : FVal
  evm : FVal
  chanPow : Rat
  adjLower : Rat
  adjUpper : Rat
deriving DecidableEq, Repr

/-- Result record of `VSA.measure_K575_evm` (timing fields omitted). -/
structure K575Result where
  evm : FVal
  chanPow : Rat
  adjLower : Rat
  adjUpper : Rat
deriving DecidableEq, Repr

namespace VSA

/-- vsa.py `VSA.queryFloat`: `float()` of the response, with `ValueError`
caught and turned into `float('nan')`. -/
def queryFloat (resp : String) : FVal :=
  match pythonFloat resp with
  | some q => FVal.val q
  | none => FVal.nan

/-- The ACLR fetch parsing shared by both measurement variants
(vsa.py lines 103-106 and 139-142): `aclr_list.split(',')` followed by a
bare `float()` on elements 0, 1, 2.  A missing element raises
`IndexError`; a non-numeric element raises `ValueError`; neither is
caught inside the measurement. -/
def parseAclr3 (resp : String) : Except String (Rat × Rat × Rat) :=
  match splitOnChar ',' resp.data with
  | p0 :: p1 :: p2 :: _ =>
      match pythonFloatChars p0, pythonFloatChars p1, pythonFloatChars p2 with
      | some a, some b, some c => Except.ok (a, b, c)
      | _, _, _ => Except.error "ValueError"
  | _ => Except.error "IndexError"

/-- vsa.py `VSA.measure_evm`: after the configuration commands, fetch
averaged power and averaged EVM through `queryFloat`, switch the
analyzer to ACLR mode, fetch and positionally parse the three-element
ACLR response with bare `float()`, then switch back to EVM mode.
The fetch responses are passed in as the strings the instrument returns. -/
def measure_evm (s : AnalyzerState) (powResp evmResp aclrResp : String) :
    Except String (EvmResult × AnalyzerState) :=
  let vsaPower := queryFloat powResp
  let evmV := queryFloat evmResp
  let s1 : AnalyzerState := { s with mode := MeasMode.aclr }
  match parseAclr3 aclrResp with
  | Except.error e => Except.error e
  | Except.ok (cp, lo, hi) =>
      let s2 : AnalyzerState := { s1 with mode := MeasMode.evm }
      Except.ok ({ vsaPower := vsaPower, evm := evmV,
                   chanPow := cp, adjLower := lo, adjUpper := hi }, s2)

/-- vsa.py `VSA.measure_K575_evm`: enable noise-cancellation averaging,
set the averaging count, trigger, fetch EVM through `queryFloat`, switch
to ACLR mode, enable noise correction, trigger, parse the three-element
ACLR response with bare `float()`, then switch back to EVM mode and
disable noise-cancellation averaging as the final two steps. -/
def measure_K575_evm (s : AnalyzerState) (avg : Nat) (evmResp aclrResp : String) :
    Except String (K575Result × AnalyzerState) :=
  let s1 : AnalyzerState := { s with ncanAvgOn := true }
  let s2 : AnalyzerState := { s1 with ncanCount := avg }
  let evmV := queryFloat evmResp
  let s3 : AnalyzerState := { s2 with mode := MeasMode.aclr }
  let s4 : AnalyzerState := { s3 with noiseCorrOn := true }
  match parseAclr3 aclrResp with
  | Except.error e => Except.error e
  | Except.ok (cp, lo, hi) =>
      let s5 : AnalyzerState := { s4 with mode := MeasMode.evm }
      let s6 : AnalyzerState := { s5 with ncanAvgOn := false }
      Except.ok ({ evm := evmV, chanPow := cp,
                   adjLower := lo, adjUpper := hi }, s6)

end VSA

/-- Outcome of the servo loop (power_servo.py `PowerServo.servo_power`):
the iteration count returned, the sequence of setpoints pushed to the
source via `vsg.set_power` in chronological order, and whether the loop
exited through the convergence `break` (the settle time, being wall
clock, is not modelled). -/
structure ServoResult where
  iterations : Nat
  pushes : List Rat
  converged : Bool
deriving DecidableEq, Repr

/-- The `for i in range(max_iterations)` loop of `servo_power`, with the
power-meter output readings supplied as a stream indexed by iteration.
Each pass reads the meter, sets `servo_iterations = i + 1`, breaks when
`|current_output - target_output| < tolerance` (strict), and otherwise
adds `target_output - current_output` to the running setpoint and pushes
it to the source. -/
def servoAux (readings : Nat → Rat) (target tol : Rat) :
    Nat → Nat → Rat → ServoResult
  | 0, it, _ => ⟨it, [], false⟩
  | fuel + 1, it, pwr =>
      let cur := readings it
      if |cur - target| < tol then ⟨it + 1, [], true⟩
      else
        let pwr2 := pwr + (target - cur)
        let r := servoAux readings target tol fuel (it + 1) pwr2
        ⟨r.iterations, pwr2 :: r.pushes, r.converged⟩

/-- power_servo.py `PowerServo.servo_power`: the running setpoint starts
at `target_output - expected_gain` and the loop runs for at most
`max_iterations` passes. -/
def servo_power (readings : Nat → Rat) (maxIterations : Nat)
    (targetOutput expectedGain tol : Rat) : ServoResult :=
  servoAux readings targetOutput tol maxIterations 0 (targetOutput - expectedGain)

/-- What the `finally` block of `run_sweep` (main.py lines 176-182) did:
which instrument handles were closed, whether the accumulated records
were handed to the result sink, and whether an exception escaped. -/
structure FinalizeOutcome (α : Type) where
  vsgClosed : Bool
  vsaClosed : Bool
  pmClosed : Bool
  handedOff : Option (List α)
  raised : Bool
deriving DecidableEq, Repr

/-- The `finally` block of `run_sweep`: `vsg.close()` runs first, the
`vsa.close()` line is commented out in the source, `pm.close()` runs
next, and then the accumulated records are handed to the result sink
(DataFrame construction and Excel write).  The closes are plain
sequential statements: an exception from one aborts the rest of the
block.  `vsgRaises`/`pmRaises` say whether the respective `close()`
raises. -/
def finalizeBlock (α : Type) (vsgRaises pmRaises : Bool) (records : List α) :
    FinalizeOutcome α :=
  if vsgRaises then ⟨false, false, false, none, true⟩
  else if pmRaises then ⟨true, false, false, none, true⟩
  else ⟨true, false, true, some records, false⟩

/-- Length of `numpy.arange(start, stop, step)` for a positive step, in
exact arithmetic: `ceil((stop - start)/step)` values in `[start, stop)`. -/
def arangeLen (start stop step : Rat) : Nat :=
  if stop ≤ start then 0 else (Int.ceil ((stop - start) / step)).toNat

/-- `numpy.arange(start, stop, step)` in exact rational arithmetic:
the element at index `i` is `start + i * step`. -/
def arange (start stop step : Rat) : List Rat :=
  (List.range (arangeLen start stop step)).map
    (fun (i : Nat) => start + (i : Rat) * step)

/-- The frequency grid of `run_sweep` (main.py line 60):
`np.arange(start, stop + step, step)`, modelled in exact arithmetic. -/
def freqGrid (start stop step : Rat) : List Rat :=
  arange start (stop + step) step

theorem arange_length (start stop step : Rat) :
    (arange start stop step).length = arangeLen start stop step := by
  rw [arange, List.length_map, List.length_range]

theorem arange_mem (start stop step x : Rat) :
    x ∈ arange start stop step ↔
      ∃ i : Nat, i < arangeLen start stop step ∧ start + (i : Rat) * step = x := by
  rw [arange]
  simp only [List.mem_map, List.mem_range]

theorem arange_get (start stop step : Rat) (i : Nat)
    (hi : i < (arange start stop step).length) :
    (arange start stop step).get ⟨i, hi⟩ = start + (i : Rat) * step := by
  simp [arange]

theorem arange_pairwise (start stop step : Rat) (h2 : 0 < step) :
    List.Pairwise (· < ·) (arange start stop step) := by
  rw [arange]
  refine List.Pairwise.map _ ?_ (List.pairwise_lt_range _)
  intro a b hab
  have hab2 : (a : Rat) < b := by exact_mod_cast hab
  have := mul_lt_mul_of_pos_right hab2 h2
  linarith

/-- Claim C5 counterexample: for start 0, stop 5/2, step 1 the generated
grid is [0, 1, 2, 3]: it has 4 points instead of floor((stop-start)/step)
+ 1 = 3, and its final point 3 lies above stop. -/
theorem freq_grid_claim_counterexample :
    freqGrid 0 (5 / 2) 1 = [0, 1, 2, 3]
    ∧ (freqGrid 0 (5 / 2) 1).length ≠ (Int.floor (((5 : Rat) / 2 - 0) / 1)).toNat + 1
    ∧ (3 : Rat) ∈ freqGrid 0 (5 / 2) 1
    ∧ (5 : Rat) / 2 < 3 := by
  have hceil : Int.ceil (((5 : Rat) / 2 + 1 - 0) / 1) = 4 := by
    rw [Int.ceil_eq_iff]
    constructor <;> norm_num
  have hlen : arangeLen 0 (5 / 2 + 1) 1 = 4 := by
    rw [arangeLen, if_neg (by norm_num : ¬((5 : Rat) / 2 + 1 ≤ 0)), hceil]
    rfl
  have hgrid : freqGrid 0 (5 / 2) 1 = [0, 1, 2, 3] := by
    rw [freqGrid, arange, hlen]
    norm_num [List.range_succ]
  have hfl : Int.floor (((5 : Rat) / 2 - 0) / 1) = 2 := by norm_num
  refine ⟨hgrid, ?_, ?_, by norm_num⟩
  · rw [hgrid, hfl]
    simp
  · rw [hgrid]
    simp

/-- Claim C5 (amended): for start <= stop and step > 0 the grid
np.arange(start, stop + step, step) is strictly ascending with element i
equal to start + i*step, has exactly ceil((stop-start)/step) + 1 points
(one more than the claimed floor formula whenever the step does not
divide stop - start exactly), contains stop exactly when stop is
reachable by the step, and every point is below stop + step (so the
final point can overshoot stop by less than one step). -/
theorem freq_grid_properties (start stop step : Rat)
    (h1 : start ≤ stop) (h2 : 0 < step) :
    (freqGrid start stop step).length = (Int.ceil ((stop - start) / step)).toNat + 1
    ∧ (∀ i, (hi : i < (freqGrid start stop step).length) →
        (freqGrid start stop step).get ⟨i, hi⟩ = start + (i : Rat) * step)
    ∧ List.Pairwise (· < ·) (freqGrid start stop step)
    ∧ (stop ∈ freqGrid start stop step ↔ ∃ k : Nat, stop = start + (k : Rat) * step)
    ∧ (∀ x ∈ freqGrid start stop step, x < stop + step) := by
  have hstep : step ≠ 0 := ne_of_gt h2
  have hlt : ¬(stop + step ≤ start) := not_le.mpr (by linarith)
  have hdiv : (stop + step - start) / step = (stop - start) / step + 1 := by
    field_simp
    ring
  have hnn : (0 : Rat) ≤ (stop - start) / step := div_nonneg (by linarith) h2.le
  have hceilnn : 0 ≤ Int.ceil ((stop - start) / step) := Int.ceil_nonneg hnn
  have hlen : arangeLen start (stop + step) step =
      (Int.ceil ((stop - start) / step)).toNat + 1 := by
    rw [arangeLen, if_neg hlt, hdiv, Int.ceil_add_one]
    omega
  refine ⟨?_, ?_, ?_, ?_, ?_⟩
  · rw [freqGrid, arange_length, hlen]
  · intro i hi
    exact arange_get start (stop + step) step i hi
  · rw [freqGrid]
    exact arange_pairwise _ _ _ h2
  · rw [freqGrid, arange_mem]
    constructor
    · rintro ⟨i, _, heq⟩
      exact ⟨i, heq.symm⟩
    · rintro ⟨k, hk⟩
      have hd : (stop - start) / step = (k : Rat) := by
        rw [hk]
        field_simp
      have hceq : Int.ceil ((stop - start) / step) = (k : Int) := by
        rw [hd]
        exact_mod_cast Int.ceil_natCast k
      refine ⟨k, ?_, hk.symm⟩
      rw [hlen, hceq]
      omega
  · intro x hx
    rw [freqGrid, arange_mem] at hx
    obtain ⟨i, hi, rfl⟩ := hx
    rw [hlen] at hi
    have hile : (i : Int) ≤ Int.ceil ((stop - start) / step) := by omega
    have hirat : (i : Rat) ≤ ((Int.ceil ((stop - start) / step) : Int) : Rat) := by
      exact_mod_cast hile
    have hc1 : ((Int.ceil ((stop - start) / step) : Int) : Rat) <
        (stop - start) / step + 1 := Int.ceil_lt_add_one _
    have hmul : (stop - start) / step * step = stop - start :=
      div_mul_cancel₀ _ hstep
    have hstepmul : (i : Rat) * step < ((stop - start) / step + 1) * step := by
      apply mul_lt_mul_of_pos_right _ h2
      linarith
    have hexp : ((stop - start) / step + 1) * step = stop - start + step := by
      rw [add_mul, one_mul, hmul]
    linarith

theorem freq_grid_properties_witness :
    (freqGrid 0 (5 / 2) 1).length = (Int.ceil (((5 : Rat) / 2 - 0) / 1)).toNat + 1 :=
  (freq_grid_properties 0 (5 / 2) 1 (by norm_num) (by norm_num)).1

/-- Claim C1 counterexample: in the `finally` block as written, even a
run where no release raises leaves the Analyzer handle unreleased (its
close is commented out), and a failure of the Source release suppresses
both the Power Meter release and the handoff of the accumulated records. -/
theorem finalize_release_counterexample :
    (finalizeBlock Rat false false []).vsaClosed = false
    ∧ (finalizeBlock Rat true false []).pmClosed = false
    ∧ (finalizeBlock Rat true false []).handedOff = none :=
  ⟨rfl, rfl, rfl⟩

/-- Claim C1 (amended): the Finalize step releases only the Source and
Power Meter handles, in sequence — the Analyzer handle is never released
— and a failing release suppresses the remaining steps; when neither
release fails, the records accumulated so far are handed to the result
sink. -/
theorem finalize_block_behavior (α : Type) (v p : Bool) (records : List α) :
    (finalizeBlock α v p records).vsaClosed = false
    ∧ (finalizeBlock α v p records).vsgClosed = !v
    ∧ (finalizeBlock α v p records).pmClosed = (!v && !p)
    ∧ (finalizeBlock α v p records).handedOff =
        (if v || p then none else some records)
    ∧ (finalizeBlock α v p records).raised = (v || p) := by
  cases v <;> cases p <;> simp [finalizeBlock]

/-- Claim C2 counterexample: a non-numeric first element of the
three-element ACLR response makes the standard measurement raise
`ValueError` instead of yielding a NaN channel-power field, so the
per-field NaN recovery does not extend to the ACLR fetch. -/
theorem aclr_field_not_recovered_counterexample :
    VSA.measure_evm ⟨MeasMode.evm, false, 0, false⟩ "1.0" "2.0" "ERR,-45.2,-44.8" =
      Except.error "ValueError" := by
  rfl

/-- Claim C2 (amended): in both variants the fetches that go through
`queryFloat` (averaged power and averaged EVM) recover from a
non-numeric response with a NaN value for that one field while every
other field of the record is still populated, but the three-element ACLR
fetch is parsed with bare float conversion, so a non-numeric element
there aborts the whole measurement with an exception. -/
theorem queryFloat_nan_recovery (s : AnalyzerState) (p e a : String) (cp lo hi : Rat)
    (ha : VSA.parseAclr3 a = Except.ok (cp, lo, hi)) (he : pythonFloat e = none) :
    VSA.measure_evm s p e a =
      Except.ok ({ vsaPower := VSA.queryFloat p, evm := FVal.nan,
                   chanPow := cp, adjLower := lo, adjUpper := hi },
                 { s with mode := MeasMode.evm })
    ∧ (∀ avg : Nat, VSA.measure_K575_evm s avg e a =
        Except.ok ({ evm := FVal.nan, chanPow := cp,
                     adjLower := lo, adjUpper := hi },
                   ⟨MeasMode.evm, false, avg, true⟩))
    ∧ (∀ msg a2, VSA.parseAclr3 a2 = Except.error msg →
        VSA.measure_evm s p e a2 = Except.error msg)
    ∧ (∀ msg a2 avg, VSA.parseAclr3 a2 = Except.error msg →
        VSA.measure_K575_evm s avg e a2 = Except.error msg) := by
  refine ⟨?_, fun avg => ?_, fun msg a2 h2 => ?_, fun msg a2 avg h2 => ?_⟩
  · simp [VSA.measure_evm, VSA.queryFloat, ha, he]
  · simp [VSA.measure_K575_evm, VSA.queryFloat, ha, he]
  · simp [VSA.measure_evm, h2]
  · simp [VSA.measure_K575_evm, h2]

theorem queryFloat_nan_recovery_witness :
    VSA.measure_evm ⟨MeasMode.evm, false, 0, false⟩ "1.0" "ERR" "-10.0,-45.2,-44.8" =
      Except.ok ({ vsaPower := VSA.queryFloat "1.0", evm := FVal.nan,
                   chanPow := -10, adjLower := mkRat (-452) 10, adjUpper := mkRat (-448) 10 },
                 { (⟨MeasMode.evm, false, 0, false⟩ : AnalyzerState) with
                     mode := MeasMode.evm }) :=
  (queryFloat_nan_recovery ⟨MeasMode.evm, false, 0, false⟩ "1.0" "ERR"
    "-10.0,-45.2,-44.8" (-10) (mkRat (-452) 10) (mkRat (-448) 10) (by rfl) (by rfl)).1

/-- Claim C8: the three-element adjacent-channel-leakage response is
parsed positionally by the standard measurement: for the response
"-10.0,-45.2,-44.8", comma-split element 0 becomes channel power -10.0,
element 1 lower-adjacent ACLR -45.2, element 2 upper-adjacent ACLR -44.8. -/
theorem aclr_positional_order (s : AnalyzerState) (powResp evmResp : String) :
    VSA.measure_evm s powResp evmResp "-10.0,-45.2,-44.8" =
      Except.ok ({ vsaPower := VSA.queryFloat powResp,
                   evm := VSA.queryFloat evmResp,
                   chanPow := -10, adjLower := mkRat (-452) 10, adjUpper := mkRat (-448) 10 },
                 { s with mode := MeasMode.evm }) := by
  have hp : VSA.parseAclr3 "-10.0,-45.2,-44.8" =
      Except.ok (-10, mkRat (-452) 10, mkRat (-448) 10) := by rfl
  simp [VSA.measure_evm, hp]

/-- Claim C9: every normal return of the extended-averaging measurement
leaves the analyzer back in the baseline it assumes on entry: the active
measurement switched back to EVM mode and noise-cancellation averaging
disabled. -/
theorem k575_restores_baseline (s : AnalyzerState) (avg : Nat)
    (evmResp aclrResp : String) (out : K575Result × AnalyzerState)
    (h : VSA.measure_K575_evm s avg evmResp aclrResp = Except.ok out) :
    out.2.mode = MeasMode.evm ∧ out.2.ncanAvgOn = false := by
  simp only [VSA.measure_K575_evm] at h
  cases hp : VSA.parseAclr3 aclrResp with
  | error msg =>
      rw [hp] at h
      exact absurd h (by simp)
  | ok t =>
      obtain ⟨cp, lo, hi⟩ := t
      rw [hp] at h
      simp only [Except.ok.injEq] at h
      rw [← h]
      exact ⟨rfl, rfl⟩

theorem k575_restores_baseline_witness :
    ((⟨⟨FVal.val 2, -10, mkRat (-452) 10, mkRat (-448) 10⟩,
       ⟨MeasMode.evm, false, 5, true⟩⟩ : K575Result × AnalyzerState).2.mode =
        MeasMode.evm
    ∧ (⟨⟨FVal.val 2, -10, mkRat (-452) 10, mkRat (-448) 10⟩,
        ⟨MeasMode.evm, false, 5, true⟩⟩ : K575Result × AnalyzerState).2.ncanAvgOn =
        false) :=
  k575_restores_baseline ⟨MeasMode.evm, false, 0, false⟩ 5 "2.0" "-10.0,-45.2,-44.8"
    ⟨⟨FVal.val 2, -10, mkRat (-452) 10, mkRat (-448) 10⟩, ⟨MeasMode.evm, false, 5, true⟩⟩ (by rfl)

theorem servoAux_iterations_ge (readings : Nat → Rat) (target tol : Rat) :
    ∀ fuel it pwr, it ≤ (servoAux readings target tol fuel it pwr).iterations := by
  intro fuel
  induction fuel with
  | zero => intro it pwr; simp [servoAux]
  | succ f ih =>
      intro it pwr
      simp only [servoAux]
      split
      · simp
      · exact le_trans (Nat.le_succ it) (ih (it + 1) _)

theorem servoAux_iterations_ge_succ (readings : Nat → Rat) (target tol : Rat)
    (fuel it : Nat) (pwr : Rat) (hfuel : 1 ≤ fuel) :
    it + 1 ≤ (servoAux readings target tol fuel it pwr).iterations := by
  obtain ⟨f, rfl⟩ : ∃ f, fuel = f + 1 := ⟨fuel - 1, by omega⟩
  simp only [servoAux]
  split
  · simp
  · exact servoAux_iterations_ge readings target tol f (it + 1) _

theorem servoAux_never_within (readings : Nat → Rat) (target tol : Rat) :
    ∀ fuel it pwr, (∀ i, tol ≤ |readings i - target|) →
      (servoAux readings target tol fuel it pwr).iterations = it + fuel ∧
      (servoAux readings target tol fuel it pwr).converged = false ∧
      (servoAux readings target tol fuel it pwr).pushes.length = fuel := by
  intro fuel
  induction fuel with
  | zero => intro it pwr _; simp [servoAux]
  | succ f ih =>
      intro it pwr h
      have hne : ¬(|readings it - target| < tol) := not_lt.mpr (h it)
      simp only [servoAux, if_neg hne]
      obtain ⟨h1, h2, h3⟩ := ih (it + 1) (pwr + (target - readings it)) h
      refine ⟨?_, h2, ?_⟩
      · rw [h1]; omega
      · simp [h3]

theorem servoAux_converged_count (readings : Nat → Rat) (target tol : Rat) :
    ∀ fuel it pwr, (servoAux readings target tol fuel it pwr).converged = true →
      (servoAux readings target tol fuel it pwr).iterations =
        it + 1 + (servoAux readings target tol fuel it pwr).pushes.length := by
  intro fuel
  induction fuel with
  | zero => intro it pwr h; simp [servoAux] at h
  | succ f ih =>
      intro it pwr
      simp only [servoAux]
      split
      · intro _; simp
      · intro h
        have := ih (it + 1) _ h
        simp only [List.length_cons, this]
        omega

theorem servoAux_pushes_partial_sums (readings : Nat → Rat) (target tol : Rat) :
    ∀ fuel it pwr k, k ≤ fuel →
      (∀ i, it ≤ i → i < it + k → tol ≤ |readings i - target|) →
      ∀ j, j < k →
        (servoAux readings target tol fuel it pwr).pushes.get? j =
          some (pwr + ∑ i in Finset.range (j + 1), (target - readings (it + i))) := by
  intro fuel
  induction fuel with
  | zero =>
      intro it pwr k hk _ j hj
      omega
  | succ f ih =>
      intro it pwr k hk h j hj
      obtain ⟨k', rfl⟩ : ∃ k', k = k' + 1 := ⟨k - 1, by omega⟩
      have hne : ¬(|readings it - target| < tol) :=
        not_lt.mpr (h it (le_refl it) (by omega))
      simp only [servoAux, if_neg hne]
      cases j with
      | zero =>
          simp [Finset.sum_range_one]
      | succ j' =>
          have hshift : ∀ i : Nat, it + 1 + i = it + (i + 1) := by omega
          have := ih (it + 1) (pwr + (target - readings it)) k' (by omega)
            (fun i hi1 hi2 => h i (by omega) (by omega)) j' (by omega)
          simp only [List.get?_cons_succ, this]
          congr 1
          rw [Finset.sum_range_succ' (fun i => target - readings (it + i)) (j' + 1)]
          have hsum : (∑ i in Finset.range (j' + 1), (target - readings (it + 1 + i))) =
              ∑ i in Finset.range (j' + 1), (target - readings (it + (i + 1))) := by
            refine Finset.sum_congr rfl fun i _ => ?_
            rw [hshift i]
          rw [hsum]
          simp only [Nat.add_zero]
          ring

/-- Claim C3: for tolerance t > 0 and maxIterations >= 1, a first
power-meter reading already equal to the target makes servo_power return
iteration count exactly 1 with convergence, and readings that all stay
at least the tolerance away make it return exactly maxIterations with no
convergence. -/
theorem servo_first_and_exhausted (readings : Nat → Rat) (maxIter : Nat)
    (target gain tol : Rat) (htol : 0 < tol) (hmax : 1 ≤ maxIter) :
    (readings 0 = target →
      servo_power readings maxIter target gain tol = ⟨1, [], true⟩)
    ∧ ((∀ i, tol ≤ |readings i - target|) →
      (servo_power readings maxIter target gain tol).iterations = maxIter ∧
      (servo_power readings maxIter target gain tol).converged = false) := by
  constructor
  · intro h0
    obtain ⟨f, rfl⟩ : ∃ f, maxIter = f + 1 := ⟨maxIter - 1, by omega⟩
    simp [servo_power, servoAux, h0, htol]
  · intro hfar
    obtain ⟨h1, h2, _⟩ :=
      servoAux_never_within readings target tol maxIter 0 (target - gain) hfar
    exact ⟨by simpa using h1, h2⟩

theorem servo_first_and_exhausted_witness :
    (((fun _ : Nat => (5 : Rat)) 0 = 5) →
      servo_power (fun _ : Nat => (5 : Rat)) 1 5 0 1 = ⟨1, [], true⟩)
    ∧ ((∀ i, (1 : Rat) ≤ |(fun _ : Nat => (5 : Rat)) i - 5|) →
      (servo_power (fun _ : Nat => (5 : Rat)) 1 5 0 1).iterations = 1 ∧
      (servo_power (fun _ : Nat => (5 : Rat)) 1 5 0 1).converged = false) :=
  servo_first_and_exhausted (fun _ => 5) 1 5 0 1 (by norm_num) (le_refl 1)

/-- Claim C4: a reading whose deviation from the target equals the
tolerance exactly does not converge under the strict less-than test: the
loop runs at least a second iteration and pushes the adjusted setpoint. -/
theorem servo_boundary_continues (readings : Nat → Rat) (maxIter : Nat)
    (target gain tol : Rat) (hb : |readings 0 - target| = tol) (hmax : 2 ≤ maxIter) :
    2 ≤ (servo_power readings maxIter target gain tol).iterations ∧
    (servo_power readings maxIter target gain tol).pushes.get? 0 =
      some ((target - gain) + (target - readings 0)) := by
  obtain ⟨f, rfl⟩ : ∃ f, maxIter = f + 1 := ⟨maxIter - 1, by omega⟩
  have hne : ¬(|readings 0 - target| < tol) := by rw [hb]; exact lt_irrefl tol
  constructor
  · simp only [servo_power, servoAux, if_neg hne]
    exact servoAux_iterations_ge_succ readings target tol f 1 _ (by omega)
  · simp [servo_power, servoAux, if_neg hne]

theorem servo_boundary_continues_witness :
    2 ≤ (servo_power (fun _ : Nat => (6 : Rat)) 3 5 0 1).iterations ∧
    (servo_power (fun _ : Nat => (6 : Rat)) 3 5 0 1).pushes.get? 0 =
      some ((5 - 0) + (5 - (fun _ : Nat => (6 : Rat)) 0)) :=
  servo_boundary_continues (fun _ => 6) 3 5 0 1 (by norm_num) (by norm_num)

/-- Claim C6: the servo's source-power setpoint obeys the stated
recurrence: starting from targetOutput - expectedGain, each of the first
k non-converged iterations with reading m_i pushes the running setpoint
plus the accumulated adjustments, so the j-th pushed setpoint equals
(targetOutput - expectedGain) + sum over the first j+1 readings of
(targetOutput - m_i). -/
theorem servo_setpoint_recurrence (readings : Nat → Rat) (maxIter : Nat)
    (target gain tol : Rat) (k : Nat) (hk : k ≤ maxIter)
    (hfar : ∀ i, i < k → tol ≤ |readings i - target|) :
    ∀ j, j < k →
      (servo_power readings maxIter target gain tol).pushes.get? j =
        some ((target - gain) + ∑ i in Finset.range (j + 1), (target - readings i)) := by
  intro j hj
  have := servoAux_pushes_partial_sums readings target tol maxIter 0 (target - gain)
    k hk (fun i _ hi2 => hfar i (by omega)) j hj
  simpa using this

theorem servo_setpoint_recurrence_witness :
    (servo_power (fun _ : Nat => (10 : Rat)) 3 5 0 1).pushes.get? 1 =
      some ((5 - 0) + ∑ i in Finset.range (1 + 1), (5 - (fun _ : Nat => (10 : Rat)) i)) :=
  servo_setpoint_recurrence (fun _ => 10) 3 5 0 1 2 (by norm_num)
    (fun i _ => by norm_num) 1 (by norm_num)

/-- Claim C10: a first reading already within tolerance makes servo_power
return without any push to the source, and in general the servo never
pushes a setpoint during the iteration on which it converges: on a
converged run the iteration count exceeds the number of pushes by
exactly one. -/
theorem servo_converging_iteration_no_push (readings : Nat → Rat) (maxIter : Nat)
    (target gain tol : Rat) :
    (|readings 0 - target| < tol →
      (servo_power readings maxIter target gain tol).pushes = [])
    ∧ ((servo_power readings maxIter target gain tol).converged = true →
      (servo_power readings maxIter target gain tol).iterations =
        (servo_power readings maxIter target gain tol).pushes.length + 1) := by
  constructor
  · intro h
    cases maxIter with
    | zero => simp [servo_power, servoAux]
    | succ f => simp [servo_power, servoAux, if_pos h]
  · intro h
    have := servoAux_converged_count readings target tol maxIter 0 (target - gain)
      (by simpa [servo_power] using h)
    simp only [servo_power]
    omega

theorem servo_converging_iteration_no_push_witness :
    (|(fun _ : Nat => (5 : Rat)) 0 - 5| < 1 →
      (servo_power (fun _ : Nat => (5 : Rat)) 3 5 0 1).pushes = [])
    ∧ ((servo_power (fun _ : Nat => (5 : Rat)) 3 5 0 1).converged = true →
      (servo_power (fun _ : Nat => (5 : Rat)) 3 5 0 1).iterations =
        (servo_power (fun _ : Nat => (5 : Rat)) 3 5 0 1).pushes.length + 1) :=
  servo_converging_iteration_no_push (fun _ => 5) 3 5 0 1
